import Mathlib

/-!
Shallow embedding of the flappy_bud simulation core (src/game.js, with the
same logic repeated in src/unnamed/part_000 up to cosmetic constants).
Coordinates, velocities and timestamps are rationals; the JS numbers in play
are exact in ℚ. Randomness (Math.random) is passed in explicitly as a
rational draw r with 0 ≤ r < 1; wall-clock time (performance.now) is passed
to each tick as a parameter.
-/

namespace FlappyBud

/-- `SCREEN_WIDTH` from src/game.js line 5. -/
def SCREEN_WIDTH : ℚ := 400

/-- `SCREEN_HEIGHT` from src/game.js line 6. -/
def SCREEN_HEIGHT : ℚ := 600

/-- `BIRD_X` from src/game.js line 20. -/
def BIRD_X : ℚ := 50

/-- `BIRD_WIDTH` from src/game.js line 21. -/
def BIRD_WIDTH : ℚ := 34

/-- `BIRD_HEIGHT` from src/game.js line 22. -/
def BIRD_HEIGHT : ℚ := 24

/-- `GRAVITY` from src/game.js line 23. -/
def GRAVITY : ℚ := 0.5

/-- `JUMP_STRENGTH` from src/game.js line 24. -/
def JUMP_STRENGTH : ℚ := -10

/-- `PIPE_WIDTH` from src/game.js line 27. -/
def PIPE_WIDTH : ℚ := 80

/-- `PIPE_GAP` from src/game.js line 28. -/
def PIPE_GAP : ℚ := 150

/-- `PIPE_SPEED` from src/game.js line 29. -/
def PIPE_SPEED : ℚ := 3

/-- The spawn interval (milliseconds) hard-coded in `Game.update`
(src/game.js line 202). -/
def SPAWN_INTERVAL : ℚ := 1500

/-- The `Bird` instance state (src/game.js lines 31-41); the `image` field is
rendering-only and omitted. -/
structure Bird where
  x : ℚ
  y : ℚ
  vel : ℚ
  width : ℚ
  height : ℚ
  deriving DecidableEq, Repr

/-- The state the `Bird` constructor produces (src/game.js lines 32-37). -/
def Bird.init : Bird :=
  { x := BIRD_X, y := SCREEN_HEIGHT / 2, vel := 0,
    width := BIRD_WIDTH, height := BIRD_HEIGHT }

/-- `Bird.update` (src/game.js lines 43-46): `vel += GRAVITY; y += vel`. -/
def Bird.update (b : Bird) : Bird :=
  { b with vel := b.vel + GRAVITY, y := b.y + (b.vel + GRAVITY) }

/-- `Bird.jump` (src/game.js lines 48-50): `vel = JUMP_STRENGTH`. -/
def Bird.jump (b : Bird) : Bird :=
  { b with vel := JUMP_STRENGTH }

/-- The record returned by `Bird.getBounds` (src/game.js lines 61-68). -/
structure Bounds where
  left : ℚ
  right : ℚ
  top : ℚ
  bottom : ℚ
  deriving DecidableEq, Repr

/-- `Bird.getBounds` (src/game.js lines 61-68). -/
def Bird.getBounds (b : Bird) : Bounds :=
  { left := b.x, right := b.x + b.width, top := b.y, bottom := b.y + b.height }

/-- The `Pipe` instance state (src/game.js lines 71-82); `image` omitted. -/
structure Pipe where
  x : ℚ
  width : ℚ
  gap : ℚ
  topHeight : ℚ
  bottomY : ℚ
  passed : Bool
  deriving DecidableEq, Repr

/-- The `Pipe` constructor (src/game.js lines 72-82), with the value of
`Math.random()` passed in as `r` (the browser guarantees `0 ≤ r < 1`):
`topHeight = r * (SCREEN_HEIGHT - gap - 100) + 50`. -/
def Pipe.new (r : ℚ) : Pipe :=
  { x := SCREEN_WIDTH, width := PIPE_WIDTH, gap := PIPE_GAP,
    topHeight := r * (SCREEN_HEIGHT - PIPE_GAP - 100) + 50,
    bottomY := (r * (SCREEN_HEIGHT - PIPE_GAP - 100) + 50) + PIPE_GAP,
    passed := false }

/-- `Pipe.update` (src/game.js lines 84-86): `x -= PIPE_SPEED`. -/
def Pipe.update (p : Pipe) : Pipe :=
  { p with x := p.x - PIPE_SPEED }

/-- `Pipe.checkCollision` (src/game.js lines 112-128): two guarded returns,
one against the top pipe, one against the bottom pipe. -/
def Pipe.checkCollision (p : Pipe) (b : Bird) : Bool :=
  let bb := b.getBounds
  if bb.right > p.x ∧ bb.left < p.x + p.width ∧ bb.top < p.topHeight then
    true
  else if bb.right > p.x ∧ bb.left < p.x + p.width ∧ bb.bottom > p.bottomY then
    true
  else
    false

/-- `Pipe.isOffscreen` (src/game.js lines 130-132). -/
def Pipe.isOffscreen (p : Pipe) : Bool :=
  decide (p.x + p.width < 0)

/-- The `Game` instance state (src/game.js lines 135-154). -/
structure Game where
  bird : Bird
  pipes : List Pipe
  score : ℕ
  gameOver : Bool
  lastPipeSpawn : ℚ
  deriving DecidableEq, Repr

/-- The state `Game.reset` installs (src/game.js lines 148-154); the
constructor calls `reset()`, so this is also the initial state. -/
def Game.init : Game :=
  { bird := Bird.init, pipes := [], score := 0, gameOver := false,
    lastPipeSpawn := 0 }

/-- The body of the per-pipe `forEach` in `Game.update` (src/game.js lines
208-219): move the pipe, mark it passed (scoring 1) when its right edge has
crossed the bird's x, and evaluate collision. Returns the updated pipe, the
score increment (0 or 1) and the collision flag. -/
def pipeStep (b : Bird) (p : Pipe) : Pipe × ℕ × Bool :=
  let p1 := p.update
  if p1.passed = false ∧ p1.x + p1.width < b.x then
    ({ p1 with passed := true }, 1, Pipe.checkCollision { p1 with passed := true } b)
  else
    (p1, 0, p1.checkCollision b)

/-- The whole `forEach` loop over `this.pipes` (src/game.js lines 208-219):
the updated list, the total score increment, and whether any pipe collided. -/
def pipesStep (b : Bird) : List Pipe → List Pipe × ℕ × Bool
  | [] => ([], 0, false)
  | p :: ps =>
    let s := pipeStep b p
    let rest := pipesStep b ps
    (s.1 :: rest.1, s.2.1 + rest.2.1, s.2.2 || rest.2.2)

/-- `Game.update` (src/game.js lines 196-228): early return on game over;
bird physics; timed spawn (`now` is the value of `performance.now()`, `r` the
random draw used if a pipe is created); the per-pipe loop; off-screen
removal; ceiling/floor check. -/
def Game.update (g : Game) (now r : ℚ) : Game :=
  if g.gameOver then g
  else
    let bird := g.bird.update
    let doSpawn : Bool := decide (g.lastPipeSpawn = 0 ∨ now - g.lastPipeSpawn ≥ SPAWN_INTERVAL)
    let pipes1 := if doSpawn then g.pipes ++ [Pipe.new r] else g.pipes
    let last1 := if doSpawn then now else g.lastPipeSpawn
    let pr := pipesStep bird pipes1
    let pipes2 := pr.1.filter (fun p => !p.isOffscreen)
    { bird := bird,
      pipes := pipes2,
      score := g.score + pr.2.1,
      gameOver := pr.2.2 || decide (bird.y < 0 ∨ bird.y + bird.height > SCREEN_HEIGHT),
      lastPipeSpawn := last1 }

/-- The external events that mutate simulation state: a simulation tick
(`Game.update`, with its wall-clock reading and random draw), a jump input
(the `Space`/click/touch handlers, src/game.js lines 158-188, gated on
`!gameOver`), and an explicit reset. -/
inductive Op where
  | tick (now r : ℚ)
  | flap
  | reset
  deriving DecidableEq, Repr

/-- One event applied to a game state. -/
def Game.step (g : Game) : Op → Game
  | Op.tick now r => g.update now r
  | Op.flap => if g.gameOver then g else { g with bird := g.bird.jump }
  | Op.reset => Game.init

/-- A whole run: the event sequence applied to the initial state, so the
states `Game.run ops` are exactly the reachable states. -/
def Game.run (ops : List Op) : Game :=
  ops.foldl Game.step Game.init

/-- Number of pipes in a collection whose `passed` flag is set. -/
def passedCount (ps : List Pipe) : ℕ :=
  (ps.filter (fun p => p.passed)).length

/-- The collision predicate as section 4.2 of the spec words it: the
horizontal spans overlap and the bird's vertical span is not inside the gap
window. -/
def collidesWithSpec (b : Bird) (p : Pipe) : Bool :=
  decide (b.getBounds.right > p.x ∧ b.getBounds.left < p.x + p.width ∧
    (b.getBounds.top < p.topHeight ∨ b.getBounds.bottom > p.bottomY))

/-- A bird at height `y` whose horizontal span overlaps a pipe at `x = 40`:
the bird geometry of src/game.js with `top = y`, `bottom = y + 24`. -/
def birdAt (y : ℚ) : Bird :=
  { x := BIRD_X, y := y, vel := 0, width := BIRD_WIDTH, height := BIRD_HEIGHT }

/-- The spawn times recorded along a run: the `now` of every tick on which
`Game.update` creates a pipe (its guard on src/game.js line 202, reached
only when not game over). -/
def spawnTimes : Game → List Op → List ℚ
  | _, [] => []
  | g, Op.tick now r :: ops =>
    if g.gameOver = false ∧ (g.lastPipeSpawn = 0 ∨ now - g.lastPipeSpawn ≥ SPAWN_INTERVAL)
    then now :: spawnTimes (g.step (Op.tick now r)) ops
    else spawnTimes (g.step (Op.tick now r)) ops
  | g, Op.flap :: ops => spawnTimes (g.step Op.flap) ops
  | g, Op.reset :: ops => spawnTimes (g.step Op.reset) ops

/-- Ticks where the demonstration run presses jump: found by simulating the
game; they keep the bird strictly inside the screen and inside the single
pipe's gap window for 161 ticks. -/
def demoFlap (t : ℕ) : Bool :=
  t ≤ 13 || t == 50 || t == 89 || t == 128

/-- A concrete event sequence: `n` ticks at times `1, 2, ..., n` (so only the
first tick spawns a pipe, with random draw 0), with jump inputs inserted
before the ticks `demoFlap` selects. -/
def demoOps (n : ℕ) : List Op :=
  (List.range n).flatMap (fun i =>
    let t := i + 1
    (if demoFlap t then [Op.flap] else []) ++ [Op.tick (t : ℚ) 0])

/-- The invariant behind the pass/collision separation: the bird never moves
horizontally, and every pipe marked `passed` lies wholly to the left of the
bird's x position. -/
def PassedInv (g : Game) : Prop :=
  g.bird.x = BIRD_X ∧ ∀ p ∈ g.pipes, p.passed = true → p.x + p.width < g.bird.x

attribute [local semireducible] Rat.add Rat.sub Rat.mul Rat.inv Rat.ofScientific

set_option maxRecDepth 100000

/-- Unfolded description of one iteration of the per-pipe loop: how the
`passed` flag, the score increment, and the geometry come out. -/
theorem pipeStep_spec (b : Bird) (p : Pipe) :
    (pipeStep b p).1.passed = (p.passed || decide (p.x - PIPE_SPEED + p.width < b.x))
    ∧ (pipeStep b p).2.1
        = (if p.passed = false ∧ p.x - PIPE_SPEED + p.width < b.x then 1 else 0)
    ∧ (pipeStep b p).1.x = p.x - PIPE_SPEED
    ∧ (pipeStep b p).1.width = p.width := by
  cases hpass : p.passed with
  | false =>
    by_cases hx : p.x - PIPE_SPEED + p.width < b.x
    · simp [pipeStep, Pipe.update, hpass, hx]
    · simp [pipeStep, Pipe.update, hpass, hx]
  | true =>
    simp [pipeStep, Pipe.update, hpass]

/-- `passedCount` of a cons. -/
theorem passedCount_cons (p : Pipe) (ps : List Pipe) :
    passedCount (p :: ps) = (if p.passed then 1 else 0) + passedCount ps := by
  cases h : p.passed <;> simp [passedCount, List.filter_cons, h]
  omega

/-- The per-pipe loop adds to the passed count exactly its score increment. -/
theorem pipesStep_passedCount (b : Bird) (ps : List Pipe) :
    passedCount (pipesStep b ps).1 = passedCount ps + (pipesStep b ps).2.1 := by
  induction ps with
  | nil => rfl
  | cons p ps ih =>
    have hstep : (if (pipeStep b p).1.passed then 1 else 0)
        = (if p.passed then 1 else 0) + (pipeStep b p).2.1 := by
      obtain ⟨h1, h2, -⟩ := pipeStep_spec b p
      cases hpass : p.passed with
      | false =>
        by_cases hx : p.x - PIPE_SPEED + p.width < b.x <;>
          rw [h1, h2] <;> simp [hpass, hx]
      | true => rw [h1, h2]; simp [hpass]
    simp only [pipesStep, passedCount_cons, ih, hstep]
    omega

/-- Filtering a pipe list can only lower the passed count. -/
theorem passedCount_filter_le (f : Pipe → Bool) (ps : List Pipe) :
    passedCount (ps.filter f) ≤ passedCount ps :=
  List.Sublist.length_le (List.Sublist.filter _ (List.filter_sublist ps))

/-- Appending a freshly constructed pipe does not change the passed count. -/
theorem passedCount_append_new (ps : List Pipe) (r : ℚ) :
    passedCount (ps ++ [Pipe.new r]) = passedCount ps := by
  simp [passedCount, List.filter_append, Pipe.new]

/-- Members of the per-pipe loop's output all come from `pipeStep` on a
member of the input. -/
theorem pipesStep_mem (b : Bird) (ps : List Pipe) :
    ∀ q ∈ (pipesStep b ps).1, ∃ p ∈ ps, q = (pipeStep b p).1 := by
  induction ps with
  | nil => intro q hq; cases hq
  | cons p ps ih =>
    intro q hq
    simp only [pipesStep] at hq
    rcases List.mem_cons.mp hq with hq | hq
    · exact ⟨p, List.mem_cons_self p ps, hq⟩
    · obtain ⟨p', hp', hq'⟩ := ih q hq
      exact ⟨p', List.mem_cons_of_mem _ hp', hq'⟩

/-- A tick in the game-over state changes nothing (helper form, reused by
the invariant proofs). -/
theorem update_frozen (g : Game) (now r : ℚ) (h : g.gameOver = true) :
    g.update now r = g := by
  simp [Game.update, h]

/-- A jump input changes only the bird's velocity. -/
theorem step_flap_fields (g : Game) :
    (g.step Op.flap).pipes = g.pipes ∧ (g.step Op.flap).score = g.score
    ∧ (g.step Op.flap).gameOver = g.gameOver
    ∧ (g.step Op.flap).lastPipeSpawn = g.lastPipeSpawn
    ∧ (g.step Op.flap).bird.x = g.bird.x := by
  by_cases hg : g.gameOver <;> simp [Game.step, hg, Bird.jump]

/-- The fields of a playing tick, written out. -/
theorem update_playing_fields (g : Game) (now r : ℚ) (h : g.gameOver = false) :
    (g.update now r).bird = g.bird.update
    ∧ (g.update now r).pipes
        = (pipesStep g.bird.update
            (if g.lastPipeSpawn = 0 ∨ now - g.lastPipeSpawn ≥ SPAWN_INTERVAL
             then g.pipes ++ [Pipe.new r] else g.pipes)).1.filter
            (fun p => !p.isOffscreen)
    ∧ (g.update now r).score
        = g.score + (pipesStep g.bird.update
            (if g.lastPipeSpawn = 0 ∨ now - g.lastPipeSpawn ≥ SPAWN_INTERVAL
             then g.pipes ++ [Pipe.new r] else g.pipes)).2.1
    ∧ (g.update now r).lastPipeSpawn
        = (if g.lastPipeSpawn = 0 ∨ now - g.lastPipeSpawn ≥ SPAWN_INTERVAL
           then now else g.lastPipeSpawn) := by
  by_cases hc : g.lastPipeSpawn = 0 ∨ now - g.lastPipeSpawn ≥ SPAWN_INTERVAL <;>
    simp [Game.update, h, hc]

/-- No event other than reset lowers the score. -/
theorem score_step_le (g : Game) (op : Op) (h : op ≠ Op.reset) :
    g.score ≤ (g.step op).score := by
  cases op with
  | reset => exact absurd rfl h
  | flap => by_cases hg : g.gameOver <;> simp [Game.step, hg]
  | tick now r =>
    by_cases hg : g.gameOver
    · simp [Game.step, update_frozen g now r hg]
    · have := (update_playing_fields g now r (by simpa using hg)).2.2.1
      simp only [Game.step, this]
      omega

/-- A Boolean that is not true is false. -/
theorem bool_eq_false {b : Bool} (h : ¬b = true) : b = false := by
  cases b with
  | false => rfl
  | true => exact absurd rfl h

/-- Membership in the possibly-extended pipe list after the spawn check. -/
theorem mem_spawn_list {q : Pipe} {ps : List Pipe} {r : ℚ} {c : Prop} [Decidable c]
    (hq : q ∈ (if c then ps ++ [Pipe.new r] else ps)) : q ∈ ps ∨ q = Pipe.new r := by
  split at hq
  · rcases List.mem_append.mp hq with h | h
    · exact Or.inl h
    · exact Or.inr (List.mem_singleton.mp h)
  · exact Or.inl hq

/-- The initial state satisfies the passed-pipe invariant. -/
theorem passedInv_init : PassedInv Game.init := by
  refine ⟨rfl, ?_⟩
  intro p hp
  cases hp

/-- Every event preserves the passed-pipe invariant. -/
theorem passedInv_step (g : Game) (op : Op) (h : PassedInv g) : PassedInv (g.step op) := by
  obtain ⟨hx, hall⟩ := h
  cases op with
  | reset => exact passedInv_init
  | flap =>
    obtain ⟨hp, -, -, -, hbx⟩ := step_flap_fields g
    refine ⟨by rw [hbx, hx], ?_⟩
    intro p hmem hpass
    rw [hbx]
    exact hall p (hp ▸ hmem) hpass
  | tick now r =>
    by_cases hg : g.gameOver
    · simp only [Game.step]
      rw [update_frozen g now r hg]
      exact ⟨hx, hall⟩
    · have hg' : g.gameOver = false := bool_eq_false hg
      obtain ⟨hbird, hpipes, -, -⟩ := update_playing_fields g now r hg'
      have hbx : (g.bird.update).x = g.bird.x := rfl
      constructor
      · simp only [Game.step]
        rw [hbird, hbx]
        exact hx
      · intro p hmem hpass
        simp only [Game.step] at hmem ⊢
        rw [hbird, hbx]
        rw [hpipes] at hmem
        have hmem' := List.mem_of_mem_filter hmem
        obtain ⟨q, hq, rfl⟩ := pipesStep_mem _ _ p hmem'
        obtain ⟨h1, -, h3, h4⟩ := pipeStep_spec (g.bird.update) q
        rcases Bool.or_eq_true_iff.mp (h1 ▸ hpass) with hq1 | hq2
        · have hqlt : q.x + q.width < g.bird.x := by
            rcases mem_spawn_list hq with hmemg | hnew
            · exact hall q hmemg hq1
            · rw [hnew] at hq1
              exact absurd hq1 (by simp [Pipe.new])
          rw [h3, h4]
          have hps : (0:ℚ) < PIPE_SPEED := by norm_num [PIPE_SPEED]
          linarith
        · have hlt := of_decide_eq_true hq2
          rw [h3, h4]
          exact hbx ▸ hlt

/-- The passed-pipe invariant holds in every reachable state. -/
theorem passedInv_run (ops : List Op) : PassedInv (Game.run ops) := by
  suffices h : ∀ g, PassedInv g → PassedInv (List.foldl Game.step g ops) from
    h Game.init passedInv_init
  induction ops with
  | nil => exact fun g hg => hg
  | cons op ops ih =>
    intro g hg
    exact ih _ (passedInv_step g op hg)

/-- Every event preserves `passedCount pipes ≤ score`. -/
theorem step_passedCount (g : Game) (op : Op) (h : passedCount g.pipes ≤ g.score) :
    passedCount (g.step op).pipes ≤ (g.step op).score := by
  cases op with
  | reset => simp [Game.step, Game.init, passedCount]
  | flap =>
    obtain ⟨hp, hs, -⟩ := step_flap_fields g
    rw [hp, hs]
    exact h
  | tick now r =>
    by_cases hg : g.gameOver
    · simp only [Game.step]
      rw [update_frozen g now r hg]
      exact h
    · have hg' : g.gameOver = false := bool_eq_false hg
      obtain ⟨-, hpipes, hscore, -⟩ := update_playing_fields g now r hg'
      simp only [Game.step]
      rw [hpipes, hscore]
      have hL : passedCount
          (if g.lastPipeSpawn = 0 ∨ now - g.lastPipeSpawn ≥ SPAWN_INTERVAL
           then g.pipes ++ [Pipe.new r] else g.pipes) = passedCount g.pipes := by
        split_ifs with hc
        · exact passedCount_append_new g.pipes r
        · rfl
      calc passedCount ((pipesStep g.bird.update _).1.filter (fun p => !p.isOffscreen))
          ≤ passedCount (pipesStep g.bird.update _).1 := passedCount_filter_le _ _
        _ = passedCount _ + (pipesStep g.bird.update _).2.1 := pipesStep_passedCount _ _
        _ = passedCount g.pipes + (pipesStep g.bird.update _).2.1 := by rw [hL]
        _ ≤ g.score + (pipesStep g.bird.update _).2.1 := Nat.add_le_add_right h _

/-- A spawning tick records `now` as the last spawn time. -/
theorem step_tick_lastSpawn_spawn (g : Game) (now r : ℚ) (h : g.gameOver = false)
    (hc : g.lastPipeSpawn = 0 ∨ now - g.lastPipeSpawn ≥ SPAWN_INTERVAL) :
    (g.step (Op.tick now r)).lastPipeSpawn = now := by
  simp only [Game.step]
  rw [(update_playing_fields g now r h).2.2.2]
  exact if_pos hc

/-- A non-spawning tick leaves the last spawn time unchanged. -/
theorem step_tick_lastSpawn_no (g : Game) (now r : ℚ)
    (h : ¬(g.gameOver = false ∧ (g.lastPipeSpawn = 0 ∨ now - g.lastPipeSpawn ≥ SPAWN_INTERVAL))) :
    (g.step (Op.tick now r)).lastPipeSpawn = g.lastPipeSpawn := by
  simp only [Game.step]
  by_cases hg : g.gameOver
  · rw [update_frozen g now r hg]
  · have hg' : g.gameOver = false := bool_eq_false hg
    have hnc : ¬(g.lastPipeSpawn = 0 ∨ now - g.lastPipeSpawn ≥ SPAWN_INTERVAL) :=
      fun hc => h ⟨hg', hc⟩
    rw [(update_playing_fields g now r hg').2.2.2]
    exact if_neg hnc

/-- Along a reset-free run with positive tick timestamps, the recorded spawn
times are spaced at least `SPAWN_INTERVAL` apart; stated together with the
version carrying the pending last spawn time at the head. -/
theorem spawnTimes_chain (ops : List Op)
    (hnr : ∀ op ∈ ops, op ≠ Op.reset)
    (hpos : ∀ now r : ℚ, Op.tick now r ∈ ops → 0 < now) :
    ∀ g : Game,
      (g.lastPipeSpawn = 0 →
        List.Chain' (fun a b => SPAWN_INTERVAL ≤ b - a) (spawnTimes g ops))
      ∧ (g.lastPipeSpawn ≠ 0 →
        List.Chain' (fun a b => SPAWN_INTERVAL ≤ b - a)
          (g.lastPipeSpawn :: spawnTimes g ops)) := by
  induction ops with
  | nil =>
    intro g
    exact ⟨fun _ => List.chain'_nil, fun _ => List.chain'_singleton _⟩
  | cons op ops ih =>
    have hnr' : ∀ o ∈ ops, o ≠ Op.reset :=
      fun o ho => hnr o (List.mem_cons_of_mem _ ho)
    have hpos' : ∀ now r : ℚ, Op.tick now r ∈ ops → 0 < now :=
      fun now r hm => hpos now r (List.mem_cons_of_mem _ hm)
    intro g
    cases op with
    | reset => exact absurd rfl (hnr _ (List.mem_cons_self _ _))
    | flap =>
      have hlast : (g.step Op.flap).lastPipeSpawn = g.lastPipeSpawn :=
        (step_flap_fields g).2.2.2.1
      obtain ⟨ih0, ih1⟩ := ih hnr' hpos' (g.step Op.flap)
      constructor
      · intro h0
        exact ih0 (hlast.trans h0)
      · intro h1
        have := ih1 (fun hc => h1 (hlast ▸ hc))
        rwa [hlast] at this
    | tick now r =>
      have hposnow : 0 < now := hpos now r (List.mem_cons_self _ _)
      obtain ⟨ih0, ih1⟩ := ih hnr' hpos' (g.step (Op.tick now r))
      by_cases hcond : g.gameOver = false ∧
          (g.lastPipeSpawn = 0 ∨ now - g.lastPipeSpawn ≥ SPAWN_INTERVAL)
      · have hlast : (g.step (Op.tick now r)).lastPipeSpawn = now :=
          step_tick_lastSpawn_spawn g now r hcond.1 hcond.2
        have htail : List.Chain' (fun a b => SPAWN_INTERVAL ≤ b - a)
            (now :: spawnTimes (g.step (Op.tick now r)) ops) := by
          have := ih1 (by rw [hlast]; exact ne_of_gt hposnow)
          rwa [hlast] at this
        have hunf : spawnTimes g (Op.tick now r :: ops)
            = now :: spawnTimes (g.step (Op.tick now r)) ops := by
          simp only [spawnTimes]
          rw [if_pos hcond]
        constructor
        · intro _
          rw [hunf]
          exact htail
        · intro h1
          rw [hunf]
          refine List.chain'_cons.mpr ⟨?_, htail⟩
          rcases hcond.2 with hz | hge
          · exact absurd hz h1
          · exact hge
      · have hlast : (g.step (Op.tick now r)).lastPipeSpawn = g.lastPipeSpawn :=
          step_tick_lastSpawn_no g now r hcond
        have hunf : spawnTimes g (Op.tick now r :: ops)
            = spawnTimes (g.step (Op.tick now r)) ops := by
          simp only [spawnTimes]
          rw [if_neg hcond]
        constructor
        · intro h0
          rw [hunf]
          exact ih0 (hlast.trans h0)
        · intro h1
          rw [hunf]
          have := ih1 (fun hc => h1 (hlast ▸ hc))
          rwa [hlast] at this

/-- Claim C1: the collision test returns true iff the obstacle's horizontal
span overlaps the entity's horizontal span and the entity's top edge is above
`gapTop` or its bottom edge is below `gapBottom`; and on the two concrete
configurations of the spec (entity top 100, bottom 124; obstacle x 40,
width 80) the test returns false for `gapTop = 80, gapBottom = 230` and true
for `gapTop = 150`. -/
theorem checkCollision_eq_spec :
    (∀ (b : Bird) (p : Pipe), p.checkCollision b = collidesWithSpec b p)
    ∧ Pipe.checkCollision ⟨40, 80, 150, 80, 230, false⟩ (birdAt 100) = false
    ∧ Pipe.checkCollision ⟨40, 80, 150, 150, 300, false⟩ (birdAt 100) = true := by
  refine ⟨fun b p => ?_, by decide, by decide⟩
  simp only [Pipe.checkCollision, collidesWithSpec]
  split_ifs with h1 h2
  · exact (decide_eq_true ⟨h1.1, h1.2.1, Or.inl h1.2.2⟩).symm
  · exact (decide_eq_true ⟨h2.1, h2.2.1, Or.inr h2.2.2⟩).symm
  · refine (decide_eq_false ?_).symm
    rintro ⟨hr, hl, hc | hc⟩
    · exact h1 ⟨hr, hl, hc⟩
    · exact h2 ⟨hr, hl, hc⟩

/-- Claim C2: on every tick taken in the playing state the bird's state
satisfies exactly `vel' = vel + GRAVITY` and `y' = y + vel'`, with no
clamping. -/
theorem update_bird_physics (g : Game) (now r : ℚ) (h : g.gameOver = false) :
    (g.update now r).bird.vel = g.bird.vel + GRAVITY
    ∧ (g.update now r).bird.y = g.bird.y + (g.bird.vel + GRAVITY) := by
  rw [(update_playing_fields g now r h).1]
  exact ⟨rfl, rfl⟩

/-- Witness for claim C2 at the initial state. -/
theorem update_bird_physics_witness :
    (Game.init.update 1 0).bird.vel = Game.init.bird.vel + GRAVITY
    ∧ (Game.init.update 1 0).bird.y = Game.init.bird.y + (Game.init.bird.vel + GRAVITY) :=
  update_bird_physics Game.init 1 0 rfl

/-- Claim C3 counterexample: after the 161-tick demonstration run the game is
still in play, the score is 1, but no pipe in the live collection has its
`passed` flag set (the scored pipe has been removed off-screen), so the score
differs from the live passed count. -/
theorem score_passedCount_cex :
    (Game.run (demoOps 161)).gameOver = false
    ∧ (Game.run (demoOps 161)).score = 1
    ∧ passedCount (Game.run (demoOps 161)).pipes = 0
    ∧ (Game.run (demoOps 161)).score ≠ passedCount (Game.run (demoOps 161)).pipes := by
  decide

/-- Claim C3 as amended: in every reachable state the score is at least the
number of live pipes whose `passed` flag is set (equality can be broken only
by the off-screen removal of a passed pipe, which keeps the score). -/
theorem passedCount_le_score (ops : List Op) :
    passedCount (Game.run ops).pipes ≤ (Game.run ops).score := by
  suffices h : ∀ g, passedCount g.pipes ≤ g.score →
      passedCount (List.foldl Game.step g ops).pipes
        ≤ (List.foldl Game.step g ops).score from
    h Game.init (Nat.le_refl 0)
  induction ops with
  | nil => exact fun g hg => hg
  | cons op ops ih => exact fun g hg => ih _ (step_passedCount g op hg)

/-- Claim C4 counterexample: with random draw `9/10` the constructed pipe has
`topHeight = 365`, outside the claimed range `[50, 600 - 150 - 100] = [50, 350]`. -/
theorem gapTop_range_cex :
    (Pipe.new (9/10)).topHeight = 365
    ∧ ¬(50 ≤ (Pipe.new (9/10)).topHeight
        ∧ (Pipe.new (9/10)).topHeight ≤ SCREEN_HEIGHT - PIPE_GAP - 100) := by
  decide

/-- Claim C4 as amended: for every random draw `r` with `0 ≤ r < 1` the
constructed pipe satisfies `50 ≤ topHeight < screenHeight - gapSize - 50`
(the code reserves a 50px margin at the top and at the bottom, not 100px at
the top of the range). -/
theorem gapTop_range (r : ℚ) (h0 : 0 ≤ r) (h1 : r < 1) :
    50 ≤ (Pipe.new r).topHeight
    ∧ (Pipe.new r).topHeight < SCREEN_HEIGHT - PIPE_GAP - 50 := by
  have ht : (Pipe.new r).topHeight = r * (SCREEN_HEIGHT - PIPE_GAP - 100) + 50 := rfl
  rw [ht]
  norm_num [SCREEN_HEIGHT, PIPE_GAP]
  constructor
  · nlinarith
  · nlinarith

/-- Witness for the amended claim C4 at `r = 1/2`. -/
theorem gapTop_range_witness :
    50 ≤ (Pipe.new (1/2)).topHeight
    ∧ (Pipe.new (1/2)).topHeight < SCREEN_HEIGHT - PIPE_GAP - 50 :=
  gapTop_range (1/2) (by decide) (by decide)

/-- Claim C5: once `gameOver` is true, a tick leaves the whole simulation
state (score, bird position and velocity, pipe collection, last spawn time)
unchanged. -/
theorem update_gameOver_frozen (g : Game) (now r : ℚ) (h : g.gameOver = true) :
    g.update now r = g :=
  update_frozen g now r h

/-- Witness for claim C5 on the initial state with `gameOver` forced true. -/
theorem update_gameOver_frozen_witness :
    Game.update { Game.init with gameOver := true } 1 0
      = { Game.init with gameOver := true } :=
  update_gameOver_frozen { Game.init with gameOver := true } 1 0 rfl

/-- Claim C6: in the per-pipe loop body, the `passed` flag after the tick is
the old flag or-ed with "the moved pipe's right edge is left of the bird's x"
(so it is set exactly on the first tick the condition holds and never reset),
the score increment is 1 precisely on the tick of that transition and 0
otherwise, the pipe's x decreases by `PIPE_SPEED` every tick, and the bird's
x is never changed by physics or jumps. -/
theorem pipe_passed_transition (b : Bird) (p : Pipe) :
    (pipeStep b p).1.passed = (p.passed || decide (p.x - PIPE_SPEED + p.width < b.x))
    ∧ (pipeStep b p).2.1
        = (if p.passed = false ∧ p.x - PIPE_SPEED + p.width < b.x then 1 else 0)
    ∧ (pipeStep b p).1.x = p.x - PIPE_SPEED
    ∧ (Bird.update b).x = b.x
    ∧ (Bird.jump b).x = b.x := by
  obtain ⟨h1, h2, h3, -⟩ := pipeStep_spec b p
  exact ⟨h1, h2, h3, rfl, rfl⟩

/-- Claim C7 counterexample: a run containing a reset creates two pipes
1 millisecond apart — tick at time 1000 spawns a pipe, reset clears
`lastPipeSpawn` to 0, and the tick at time 1001 spawns again immediately. -/
theorem spawn_interval_cex :
    (Game.run [Op.tick 1000 0]).pipes.length = 1
    ∧ (Game.run [Op.tick 1000 0, Op.reset]).pipes.length = 0
    ∧ (Game.run [Op.tick 1000 0, Op.reset, Op.tick 1001 0]).pipes.length = 1
    ∧ spawnTimes Game.init [Op.tick 1000 0, Op.reset, Op.tick 1001 0] = [1000, 1001]
    ∧ ¬(SPAWN_INTERVAL ≤ (1001 : ℚ) - 1000) := by
  decide

/-- Claim C7 as amended: along any reset-free run whose tick timestamps are
positive, consecutive pipe spawns are at least `SPAWN_INTERVAL` milliseconds
of wall-clock time apart, regardless of how many ticks occur in between. -/
theorem spawn_interval_min_gap (ops : List Op)
    (hnr : ∀ op ∈ ops, op ≠ Op.reset)
    (hpos : ∀ now r : ℚ, Op.tick now r ∈ ops → 0 < now) :
    List.Chain' (fun a b => SPAWN_INTERVAL ≤ b - a) (spawnTimes Game.init ops) :=
  (spawnTimes_chain ops hnr hpos Game.init).1 rfl

/-- Witness for the amended claim C7: ticks at times 1, 2, 1502 spawn at
times 1 and 1502, which are at least 1500 apart. -/
theorem spawn_interval_min_gap_witness :
    List.Chain' (fun a b => SPAWN_INTERVAL ≤ b - a)
      (spawnTimes Game.init [Op.tick 1 0, Op.tick 2 0, Op.tick 1502 0]) :=
  spawn_interval_min_gap [Op.tick 1 0, Op.tick 2 0, Op.tick 1502 0]
    (by decide)
    (by
      intro now r hm
      simp only [List.mem_cons, List.not_mem_nil, or_false] at hm
      rcases hm with h | h | h <;> (injection h with h1 h2; rw [h1]; norm_num))

/-- Claim C8: in every reachable state, a pipe whose `passed` flag is set
fails the collision test against the bird: its right edge is strictly left
of the bird's (constant) x, so neither solid rectangle can overlap the bird. -/
theorem passed_pipe_no_collision (ops : List Op) (p : Pipe)
    (hmem : p ∈ (Game.run ops).pipes) (hpass : p.passed = true) :
    p.checkCollision (Game.run ops).bird = false := by
  obtain ⟨-, hall⟩ := passedInv_run ops
  have hlt := hall p hmem hpass
  simp only [Pipe.checkCollision, Bird.getBounds]
  split_ifs with c1 c2
  · exfalso
    have := c1.2.1
    linarith
  · exfalso
    have := c2.2.1
    linarith
  · rfl

/-- Witness for claim C8: after 150 ticks of the demonstration run the single
live pipe is passed and collides with nothing. -/
theorem passed_pipe_no_collision_witness :
    Pipe.checkCollision ⟨-50, 80, 150, 50, 200, true⟩ (Game.run (demoOps 150)).bird
      = false :=
  passed_pipe_no_collision (demoOps 150) ⟨-50, 80, 150, 50, 200, true⟩
    (by decide) (by decide)

/-- Claim C9: all collision comparisons are strict, so exact boundary contact
is not a collision: touching the pipe's left edge, its right edge, or (with
any horizontal position) grazing `gapTop` or `gapBottom` while otherwise
inside the gap yields no collision. -/
theorem boundary_contact_no_collision (b : Bird) (p : Pipe)
    (h : b.getBounds.right = p.x
      ∨ b.getBounds.left = p.x + p.width
      ∨ (b.getBounds.top = p.topHeight ∧ b.getBounds.bottom ≤ p.bottomY)
      ∨ (b.getBounds.bottom = p.bottomY ∧ p.topHeight ≤ b.getBounds.top)) :
    p.checkCollision b = false := by
  simp only [Bird.getBounds] at h
  simp only [Pipe.checkCollision, Bird.getBounds]
  split_ifs with c1 c2
  · exfalso
    obtain ⟨hr, hl, ht⟩ := c1
    rcases h with h | h | ⟨h1, h2⟩ | ⟨h1, h2⟩
    · linarith
    · linarith
    · linarith
    · linarith
  · exfalso
    obtain ⟨hr, hl, hb⟩ := c2
    rcases h with h | h | ⟨h1, h2⟩ | ⟨h1, h2⟩
    · linarith
    · linarith
    · linarith
    · linarith
  · rfl

/-- Witness for claim C9: a bird whose right edge exactly touches the pipe's
left edge does not collide. -/
theorem boundary_contact_no_collision_witness :
    Pipe.checkCollision ⟨84, 80, 150, 50, 200, false⟩ (birdAt 100) = false :=
  boundary_contact_no_collision (birdAt 100) ⟨84, 80, 150, 50, 200, false⟩
    (Or.inl (by decide))

/-- Claim C10: across any sequence of events containing no reset the score
never decreases, and a reset sets it to exactly 0. -/
theorem score_monotone_reset :
    (∀ (g : Game) (ops : List Op), (∀ op ∈ ops, op ≠ Op.reset) →
      g.score ≤ (List.foldl Game.step g ops).score)
    ∧ ∀ g : Game, (g.step Op.reset).score = 0 := by
  constructor
  · intro g ops
    induction ops generalizing g with
    | nil => exact fun _ => Nat.le_refl _
    | cons op ops ih =>
      intro h
      have h1 : g.score ≤ (g.step op).score :=
        score_step_le g op (h op (List.mem_cons_self _ _))
      have h2 := ih (g.step op) (fun o ho => h o (List.mem_cons_of_mem _ ho))
      rw [List.foldl_cons]
      exact le_trans h1 h2
  · intro g
    rfl

end FlappyBud
